import Mathlib

/-!
Verification development for the contact-form script of the
Front-End-Fisheye repository (src/scripts/pages/form.js).

The script consists of two independent components:

* a submit handler on the form element that validates four fields
  (first name, last name, email, message) against length rules and two
  regex literals, toggles one error indicator per field, and closes the
  modal exactly when no field failed;

* an initialization routine (initForm / getPhotographerDetails) that
  reads a photographer id from the page URL, fetches a record set from a
  remote JSON store, finds the record whose numeric id equals
  parseInt(id, 10), and writes a localized greeting into a heading.

The embedding below models JS strings as lists of Unicode scalar
characters, with an explicit UTF-16 code-unit length function where the
source uses String.prototype.length, and models the two regex literals
as abstract syntax trees matched by Brzozowski derivatives, so that the
boolean RegExp.prototype.test of the source is whole-string language
membership of the anchored pattern.
-/

namespace Fisheye

/-! ### JS string primitives -/

/-- Characters treated as whitespace by JS String.prototype.trim, by the
\s class of RegExp, and by the leading-whitespace skip of parseInt:
TAB LF VT FF CR, space, NBSP, the Unicode space separators, the line and
paragraph separators, and the BOM. -/
def isJsWhitespace (c : Char) : Bool :=
  let n := c.toNat
  n == 0x09 || n == 0x0A || n == 0x0B || n == 0x0C || n == 0x0D ||
  n == 0x20 || n == 0xA0 || n == 0x1680 ||
  (decide (0x2000 ≤ n) && decide (n ≤ 0x200A)) ||
  n == 0x2028 || n == 0x2029 || n == 0x202F || n == 0x205F ||
  n == 0x3000 || n == 0xFEFF

/-- Model of JS String.prototype.trim: drop leading and trailing
whitespace characters. -/
def jsTrim (cs : List Char) : List Char :=
  ((cs.dropWhile isJsWhitespace).reverse.dropWhile isJsWhitespace).reverse

/-- Model of JS String.prototype.length: the number of UTF-16 code
units, counting characters above the basic multilingual plane twice. -/
def utf16Len (cs : List Char) : Nat :=
  (cs.map (fun c => if 0x10000 ≤ c.toNat then 2 else 1)).sum

/-! ### Regex engine

The two regex literals of the source use only character classes, the
one-or-more quantifier on a class, bounded repetition and anchors, so
the abstract syntax needs no general Kleene star: a starred character
class is enough.  Matching is by Brzozowski derivatives; since the JS
patterns are anchored on both sides, RegExp.prototype.test is exactly
whole-string membership in the language of the pattern. -/

/-- Regular expressions over characters: empty language, empty string,
single character of a class, zero-or-more characters of a class,
concatenation and alternation. -/
inductive RE : Type where
  | emp : RE
  | eps : RE
  | cls : (Char → Bool) → RE
  | starCls : (Char → Bool) → RE
  | cat : RE → RE → RE
  | alt : RE → RE → RE

/-- Whether the regex accepts the empty string. -/
def RE.nullable : RE → Bool
  | .emp => false
  | .eps => true
  | .cls _ => false
  | .starCls _ => true
  | .cat r s => r.nullable && s.nullable
  | .alt r s => r.nullable || s.nullable

/-- Brzozowski derivative of a regex by one character. -/
def RE.deriv : RE → Char → RE
  | .emp, _ => .emp
  | .eps, _ => .emp
  | .cls p, c => if p c then .eps else .emp
  | .starCls p, c => if p c then .starCls p else .emp
  | .cat r s, c =>
      if r.nullable then .alt (.cat (r.deriv c) s) (s.deriv c)
      else .cat (r.deriv c) s
  | .alt r s, c => .alt (r.deriv c) (s.deriv c)

/-- Whole-string matching: derive by every character, test nullability. -/
def reMatch (r : RE) (cs : List Char) : Bool :=
  (cs.foldl RE.deriv r).nullable

/-- One or more characters of a class, the + quantifier of the source
patterns. -/
def REplus (p : Char → Bool) : RE := .cat (.cls p) (.starCls p)

/-- Zero-or-one repetition, the {0,1} quantifier of the source
patterns. -/
def REopt (r : RE) : RE := .alt .eps r

theorem reMatch_nil (r : RE) : reMatch r [] = r.nullable := rfl

theorem reMatch_cons (r : RE) (c : Char) (cs : List Char) :
    reMatch r (c :: cs) = reMatch (r.deriv c) cs := rfl

theorem reMatch_emp : ∀ cs : List Char, reMatch .emp cs = false := by
  intro cs
  induction cs with
  | nil => rfl
  | cons c cs ih => simpa [reMatch_cons, RE.deriv] using ih

theorem reMatch_eps_iff (cs : List Char) : reMatch .eps cs = true ↔ cs = [] := by
  cases cs with
  | nil => simp [reMatch_nil, RE.nullable]
  | cons c cs => simp [reMatch_cons, RE.deriv, reMatch_emp]

theorem reMatch_alt (cs : List Char) : ∀ r s : RE,
    reMatch (.alt r s) cs = (reMatch r cs || reMatch s cs) := by
  induction cs with
  | nil => intro r s; rfl
  | cons c cs ih =>
      intro r s
      simpa [reMatch_cons, RE.deriv] using ih (r.deriv c) (s.deriv c)

theorem reMatch_starCls (p : Char → Bool) :
    ∀ cs : List Char, reMatch (.starCls p) cs = cs.all p := by
  intro cs
  induction cs with
  | nil => rfl
  | cons c cs ih =>
      by_cases hc : p c = true
      · simp [reMatch_cons, RE.deriv, hc, ih, List.all_cons]
      · simp only [Bool.not_eq_true] at hc
        simp [reMatch_cons, RE.deriv, hc, reMatch_emp, List.all_cons]

theorem reMatch_cls_iff (p : Char → Bool) (cs : List Char) :
    reMatch (.cls p) cs = true ↔ ∃ c, cs = [c] ∧ p c = true := by
  cases cs with
  | nil => simp [reMatch_nil, RE.nullable]
  | cons c cs =>
      rw [reMatch_cons]
      simp only [RE.deriv]
      by_cases hc : p c = true
      · rw [if_pos hc, reMatch_eps_iff]
        constructor
        · rintro rfl; exact ⟨c, rfl, hc⟩
        · rintro ⟨d, hd, _⟩
          injection hd
      · rw [if_neg hc, reMatch_emp]
        simp only [Bool.false_eq_true, false_iff]
        rintro ⟨d, hd, hpd⟩
        injection hd with h1 h2
        subst h1
        exact hc hpd

theorem reMatch_cat_iff : ∀ (cs : List Char) (r s : RE),
    reMatch (.cat r s) cs = true ↔
      ∃ u v, cs = u ++ v ∧ reMatch r u = true ∧ reMatch s v = true := by
  intro cs
  induction cs with
  | nil =>
      intro r s
      simp only [reMatch_nil, RE.nullable, Bool.and_eq_true]
      constructor
      · rintro ⟨hr, hs⟩
        exact ⟨[], [], rfl, hr, hs⟩
      · rintro ⟨u, v, huv, hr, hs⟩
        rcases List.append_eq_nil.mp huv.symm with ⟨rfl, rfl⟩
        exact ⟨hr, hs⟩
  | cons c cs ih =>
      intro r s
      by_cases hn : r.nullable = true
      · rw [reMatch_cons]
        simp only [RE.deriv, hn, if_pos]
        rw [reMatch_alt, Bool.or_eq_true, ih]
        constructor
        · rintro (⟨u, v, huv, hr, hs⟩ | hs)
          · exact ⟨c :: u, v, by simp [huv], by rwa [reMatch_cons], hs⟩
          · exact ⟨[], c :: cs, rfl, by simpa [reMatch_nil], by rwa [reMatch_cons]⟩
        · rintro ⟨u, v, huv, hr, hs⟩
          cases u with
          | nil =>
              right
              rw [← reMatch_cons]
              have hv : v = c :: cs := by simpa using huv.symm
              rwa [hv] at hs
          | cons d u =>
              left
              injection huv with h1 h2
              subst h1
              exact ⟨u, v, h2, by rwa [reMatch_cons] at hr, hs⟩
      · simp only [Bool.not_eq_true] at hn
        rw [reMatch_cons]
        simp only [RE.deriv, hn]
        rw [if_neg (by simp), ih]
        constructor
        · rintro ⟨u, v, huv, hr, hs⟩
          exact ⟨c :: u, v, by simp [huv], by rwa [reMatch_cons], hs⟩
        · rintro ⟨u, v, huv, hr, hs⟩
          cases u with
          | nil =>
              rw [reMatch_nil, hn] at hr
              exact absurd hr (by simp)
          | cons d u =>
              injection huv with h1 h2
              subst h1
              exact ⟨u, v, h2, by rwa [reMatch_cons] at hr, hs⟩

theorem reMatch_REplus_iff (p : Char → Bool) (cs : List Char) :
    reMatch (REplus p) cs = true ↔ cs ≠ [] ∧ cs.all p = true := by
  rw [REplus, reMatch_cat_iff]
  constructor
  · rintro ⟨u, v, huv, hu, hv⟩
    rcases (reMatch_cls_iff p u).mp hu with ⟨c, rfl, hc⟩
    rw [reMatch_starCls] at hv
    subst huv
    simp [List.all_cons, hc, hv]
  · rintro ⟨hne, hall⟩
    cases cs with
    | nil => exact absurd rfl hne
    | cons c cs =>
        rw [List.all_cons, Bool.and_eq_true] at hall
        exact ⟨[c], cs, rfl, (reMatch_cls_iff p [c]).mpr ⟨c, rfl, hall.1⟩,
          by rw [reMatch_starCls]; exact hall.2⟩

theorem reMatch_REopt_iff (r : RE) (cs : List Char) :
    reMatch (REopt r) cs = true ↔ cs = [] ∨ reMatch r cs = true := by
  rw [REopt, reMatch_alt, Bool.or_eq_true, reMatch_eps_iff]

/-! ### The two regex literals of form.js

Source line 56: regexNames matches
  one or more letters, then zero, one or two repetitions of
  (an optional single separator from space, hyphen, apostrophe,
   followed by one or more letters), then an optional period,
anchored on both sides.  The letter class of the source is
a-z, A-Z and the code-unit range from 0xC0 to 0xFFFF; since every
UTF-16 code unit of a Unicode scalar value at or above 0xC0 lies in
that range (scalars above 0xFFFF encode as two surrogates, both in the
range), over scalar values the class accepts exactly the scalars at or
above 0xC0 together with the ASCII letters.

Source line 57: regexEmail matches one or more characters that are
neither whitespace nor an at sign, then an at sign, then one or more
such characters, then a period, then one or more such characters,
anchored on both sides. -/

/-- Letter class of regexNames over Unicode scalar values. -/
def isNameLetter (c : Char) : Bool :=
  (decide ('a' ≤ c) && decide (c ≤ 'z')) ||
  (decide ('A' ≤ c) && decide (c ≤ 'Z')) ||
  decide (0xC0 ≤ c.toNat)

/-- Separator class of regexNames: space, hyphen, apostrophe. -/
def isSepChar (c : Char) : Bool :=
  c == ' ' || c == '-' || c == '\x27'

/-- Character class of regexEmail: neither JS whitespace nor an at
sign. -/
def isEmailChar (c : Char) : Bool :=
  !(isJsWhitespace c) && !(c == '@')

/-- Transcription of the literal on source line 56, with the bounded
repetition written as two optional copies of the repeated group, which
has the same language. -/
def regexNames : RE :=
  .cat (REplus isNameLetter)
    (.cat (REopt (.cat (REopt (.cls isSepChar)) (REplus isNameLetter)))
      (.cat (REopt (.cat (REopt (.cls isSepChar)) (REplus isNameLetter)))
        (REopt (.cls (fun c => c == '.')))))

/-- Transcription of the literal on source line 57. -/
def regexEmail : RE :=
  .cat (REplus isEmailChar)
    (.cat (.cls (fun c => c == '@'))
      (.cat (REplus isEmailChar)
        (.cat (.cls (fun c => c == '.')) (REplus isEmailChar))))

/-! ### Declarative characterization of the two pattern languages,
written from the words of the specification, to be compared with the
transcribed literals. -/

/-- A letter group: a nonempty run of letters. -/
def IsNameGroup (w : List Char) : Prop :=
  w ≠ [] ∧ w.all isNameLetter = true

/-- One optional joined group: either nothing, or a letter group
preceded by at most one separator. -/
def IsOptJoinedGroup (r : List Char) : Prop :=
  r = [] ∨ ∃ s w, (s = [] ∨ ∃ c, isSepChar c = true ∧ s = [c]) ∧
    IsNameGroup w ∧ r = s ++ w

/-- Modelled from the spec words for the name pattern: up to three
letter groups, each joined to the previous one by at most one separator
from space, hyphen, apostrophe, with an optional trailing period. -/
def NamesSpec (cs : List Char) : Prop :=
  ∃ w r1 r2 t, IsNameGroup w ∧ IsOptJoinedGroup r1 ∧ IsOptJoinedGroup r2 ∧
    (t = [] ∨ t = ['.']) ∧ cs = w ++ r1 ++ r2 ++ t

/-- Modelled from the spec words for the email pattern: a
non-whitespace-non-at local part, an at sign, and a domain containing a
period between non-whitespace-non-at segments. -/
def EmailSpec (cs : List Char) : Prop :=
  ∃ l d1 d2, l ≠ [] ∧ l.all isEmailChar = true ∧
    d1 ≠ [] ∧ d1.all isEmailChar = true ∧
    d2 ≠ [] ∧ d2.all isEmailChar = true ∧
    cs = l ++ '@' :: (d1 ++ '.' :: d2)

theorem reMatch_optJoined_iff (r : List Char) :
    reMatch (REopt (.cat (REopt (.cls isSepChar)) (REplus isNameLetter))) r
        = true ↔ IsOptJoinedGroup r := by
  rw [reMatch_REopt_iff, reMatch_cat_iff, IsOptJoinedGroup]
  constructor
  · rintro (rfl | ⟨s, w, hsw, hs, hw⟩)
    · exact Or.inl rfl
    · refine Or.inr ⟨s, w, ?_, ?_, hsw⟩
      · rcases (reMatch_REopt_iff _ s).mp hs with rfl | hs1
        · exact Or.inl rfl
        · rcases (reMatch_cls_iff _ s).mp hs1 with ⟨c, rfl, hc⟩
          exact Or.inr ⟨c, hc, rfl⟩
      · exact (reMatch_REplus_iff _ w).mp hw
  · rintro (rfl | ⟨s, w, hs, hw, rfl⟩)
    · exact Or.inl rfl
    · refine Or.inr ⟨s, w, rfl, ?_, (reMatch_REplus_iff _ w).mpr hw⟩
      rcases hs with rfl | ⟨c, hc, rfl⟩
      · exact (reMatch_REopt_iff _ []).mpr (Or.inl rfl)
      · exact (reMatch_REopt_iff _ [c]).mpr
          (Or.inr ((reMatch_cls_iff _ [c]).mpr ⟨c, rfl, hc⟩))

/-- The transcribed name regex accepts exactly the language that the
specification describes in words. -/
theorem regexNames_correct (cs : List Char) :
    reMatch regexNames cs = true ↔ NamesSpec cs := by
  rw [regexNames, reMatch_cat_iff]
  constructor
  · rintro ⟨w, rest, rfl, hw, hrest⟩
    rcases (reMatch_cat_iff rest _ _).mp hrest with ⟨r1, rest2, rfl, hr1, hrest2⟩
    rcases (reMatch_cat_iff rest2 _ _).mp hrest2 with ⟨r2, t, rfl, hr2, ht⟩
    refine ⟨w, r1, r2, t, ?_, ?_, ?_, ?_, by simp⟩
    · exact ⟨((reMatch_REplus_iff _ w).mp hw).1, ((reMatch_REplus_iff _ w).mp hw).2⟩
    · exact (reMatch_optJoined_iff r1).mp hr1
    · exact (reMatch_optJoined_iff r2).mp hr2
    · rcases (reMatch_REopt_iff _ t).mp ht with rfl | ht1
      · exact Or.inl rfl
      · rcases (reMatch_cls_iff _ t).mp ht1 with ⟨c, rfl, hc⟩
        exact Or.inr (by simpa using hc)
  · rintro ⟨w, r1, r2, t, hw, hr1, hr2, ht, rfl⟩
    refine ⟨w, r1 ++ r2 ++ t, by simp, (reMatch_REplus_iff _ w).mpr hw, ?_⟩
    refine (reMatch_cat_iff _ _ _).mpr ⟨r1, r2 ++ t, by simp,
      (reMatch_optJoined_iff r1).mpr hr1, ?_⟩
    refine (reMatch_cat_iff _ _ _).mpr ⟨r2, t, rfl,
      (reMatch_optJoined_iff r2).mpr hr2, ?_⟩
    rcases ht with rfl | rfl
    · exact (reMatch_REopt_iff _ []).mpr (Or.inl rfl)
    · exact (reMatch_REopt_iff _ _).mpr
        (Or.inr ((reMatch_cls_iff _ _).mpr ⟨'.', rfl, by simp⟩))

/-- The transcribed email regex accepts exactly the language that the
specification describes in words. -/
theorem regexEmail_correct (cs : List Char) :
    reMatch regexEmail cs = true ↔ EmailSpec cs := by
  rw [regexEmail, reMatch_cat_iff]
  constructor
  · rintro ⟨l, rest, rfl, hl, hrest⟩
    rcases (reMatch_cat_iff rest _ _).mp hrest with ⟨a, rest2, rfl, ha, hrest2⟩
    rcases (reMatch_cls_iff _ a).mp ha with ⟨c, rfl, hc⟩
    rcases (reMatch_cat_iff rest2 _ _).mp hrest2 with ⟨d1, rest3, rfl, hd1, hrest3⟩
    rcases (reMatch_cat_iff rest3 _ _).mp hrest3 with ⟨d, d2, rfl, hd, hd2⟩
    rcases (reMatch_cls_iff _ d).mp hd with ⟨e, rfl, he⟩
    have hc2 : c = '@' := by simpa using hc
    have he2 : e = '.' := by simpa using he
    subst hc2; subst he2
    rw [reMatch_REplus_iff] at hl hd1 hd2
    exact ⟨l, d1, d2, hl.1, hl.2, hd1.1, hd1.2, hd2.1, hd2.2, by simp⟩
  · rintro ⟨l, d1, d2, hl, hla, hd1, hd1a, hd2, hd2a, rfl⟩
    refine ⟨l, _, rfl, (reMatch_REplus_iff _ l).mpr ⟨hl, hla⟩, ?_⟩
    refine (reMatch_cat_iff _ _ _).mpr ⟨['@'], _, rfl,
      (reMatch_cls_iff _ _).mpr ⟨'@', rfl, by simp⟩, ?_⟩
    refine (reMatch_cat_iff _ _ _).mpr ⟨d1, _, rfl,
      (reMatch_REplus_iff _ d1).mpr ⟨hd1, hd1a⟩, ?_⟩
    refine (reMatch_cat_iff _ _ _).mpr ⟨['.'], _, rfl,
      (reMatch_cls_iff _ _).mpr ⟨'.', rfl, by simp⟩, ?_⟩
    exact (reMatch_REplus_iff _ d2).mpr ⟨hd2, hd2a⟩

/-! ### The submit handler (source lines 48-131)

Each validator of the source mutates the shared `errors` flag and the
display style of one error-indicator element; the embedding passes the
flag explicitly and returns the display value that the validator writes
(the source writes the strings "inline" and "none").  The native
browser validity flag read by validateEmail (email.validity.valid) is
external input and is a field of the input record. -/

/-- Failure condition of validateName (source lines 71-79): trimmed
length below 2, or the trimmed value does not match regexNames. -/
def nameFails (value : List Char) : Bool :=
  decide (utf16Len (jsTrim value) < 2) || !(reMatch regexNames (jsTrim value))

/-- Failure condition of validateEmail (source lines 88-100): trimmed
length below 2, or the native validity check reports invalid, or the
raw value does not match regexEmail. -/
def emailFails (value : List Char) (validityValid : Bool) : Bool :=
  decide (utf16Len (jsTrim value) < 2) || !validityValid ||
    !(reMatch regexEmail value)

/-- Failure condition of validateMessage (source lines 109-117):
trimmed length below 2. -/
def messageFails (value : List Char) : Bool :=
  decide (utf16Len (jsTrim value) < 2)

/-- validateName: on failure show the indicator and set the error flag,
on success hide the indicator and leave the flag as it was. -/
def validateName (value : List Char) (errors : Bool) : Bool × String :=
  if nameFails value then (true, "inline") else (errors, "none")

/-- validateEmail: same shape with the email failure condition. -/
def validateEmail (value : List Char) (validityValid : Bool)
    (errors : Bool) : Bool × String :=
  if emailFails value validityValid then (true, "inline") else (errors, "none")

/-- validateMessage: same shape with the message failure condition. -/
def validateMessage (value : List Char) (errors : Bool) : Bool × String :=
  if messageFails value then (true, "inline") else (errors, "none")

/-- Current values of the four form fields, with the native browser
validity flag of the email input. -/
structure FormInputs : Type where
  first : List Char
  last : List Char
  email : List Char
  message : List Char
  emailValidityValid : Bool

/-- Display styles of the four error-indicator elements. -/
structure IndicatorDisplays : Type where
  errorFirst : String
  errorLast : String
  errorEmail : String
  errorMessage : String

/-- Observable outcome of one submit-handler pass. -/
structure SubmitOutcome : Type where
  preventDefaultCalled : Bool
  errors : Bool
  displays : IndicatorDisplays
  closeModalCalls : Nat
  returnValue : Bool

set_option linter.unusedVariables false in
/-- The submit handler: prevent the default submission, start with a
clear error flag, run the four validators in source order threading the
flag, rewrite all four indicator displays, call closeModal exactly when
the flag stayed clear, and return the negated flag.  The prior
indicator displays are taken as input and never read, as in the
source. -/
def submitHandler (inp : FormInputs) (prior : IndicatorDisplays) :
    SubmitOutcome :=
  let e0 := false
  let r1 := validateName inp.first e0
  let r2 := validateName inp.last r1.1
  let r3 := validateEmail inp.email inp.emailValidityValid r2.1
  let r4 := validateMessage inp.message r3.1
  { preventDefaultCalled := true
    errors := r4.1
    displays :=
      { errorFirst := r1.2, errorLast := r2.2
        errorEmail := r3.2, errorMessage := r4.2 }
    closeModalCalls := if r4.1 then 0 else 1
    returnValue := !r4.1 }

/-! ### The profile loader (source lines 14-31 and 136-150)

The network interaction is modeled by an explicit fetch outcome: the
fetch promise can reject, the response can carry a non-success status,
reading or decoding the body can fail, or the body can decode to a list
of photographer records.  The try block of getPhotographerDetails is a
function into Except, and the catch clause folds every thrown error
into the undefined result that the source returns. -/

/-- Fields of a photographer record that the script consumes. -/
structure Photographer : Type where
  id : Int
  name : List Char

/-- Outcome of the fetch and body decode, as seen by the try block. -/
inductive FetchResult : Type where
  | networkError : FetchResult
  | notOk : Nat → FetchResult
  | malformedBody : FetchResult
  | okBody : List Photographer → FetchResult

/-- Model of JS parseInt(s, 10): skip leading whitespace, read an
optional sign, then the longest prefix of decimal digits; none when no
digit follows, mirroring the NaN result. -/
def parseDigits (cs : List Char) : Option Nat :=
  let ds := cs.takeWhile Char.isDigit
  if ds.isEmpty then none
  else some (ds.foldl (fun a c => a * 10 + (c.toNat - 48)) 0)

/-- Model of JS parseInt with radix 10. -/
def jsParseInt10 (cs : List Char) : Option Int :=
  match cs.dropWhile isJsWhitespace with
  | '+' :: rest => (parseDigits rest).map Int.ofNat
  | '-' :: rest => (parseDigits rest).map (fun n => -(Int.ofNat n))
  | rest => (parseDigits rest).map Int.ofNat

/-- The find predicate of source line 25: strict equality of the record
id with parseInt(photographerId, 10); a NaN parse compares unequal to
every number. -/
def idMatches (photographerId : List Char) (p : Photographer) : Bool :=
  match jsParseInt10 photographerId with
  | none => false
  | some n => p.id == n

/-- The try block of getPhotographerDetails: throw on fetch rejection,
on a non-success status, and on a malformed body; otherwise resolve
with the first record whose id matches, or undefined when none does. -/
def getPhotographerDetailsTry (photographerId : List Char)
    (f : FetchResult) : Except String (Option Photographer) :=
  match f with
  | .networkError => .error "fetch rejected"
  | .notOk status => .error ("HTTP error! status: " ++ toString status)
  | .malformedBody => .error "body decode failed"
  | .okBody ps => .ok (ps.find? (idMatches photographerId))

/-- The whole async function as the caller sees it: the catch clause
handles every thrown error, logs it, and lets the function resolve with
undefined, so the Except layer never carries an error outward. -/
def getPhotographerDetailsAsync (photographerId : List Char)
    (f : FetchResult) : Except String (Option Photographer) :=
  match getPhotographerDetailsTry photographerId f with
  | .ok v => .ok v
  | .error _ => .ok none

/-- The resolved value of getPhotographerDetails. -/
def getPhotographerDetails (photographerId : List Char)
    (f : FetchResult) : Option Photographer :=
  match getPhotographerDetailsAsync photographerId f with
  | .ok v => v
  | .error _ => none

/-- updateFormHeader (source lines 37-41): the text written into the
heading, built from the template literal with the photographer name. -/
def updateFormHeader (name : List Char) : List Char :=
  "Contactez-moi ".data ++ name

/-- Observable outcome of initForm: whether the network request was
issued, the new heading text when one was written, and whether an error
was logged. -/
structure InitFormResult : Type where
  fetchIssued : Bool
  heading : Option (List Char)
  errorLogged : Bool

/-- initForm (source lines 136-150): read the id from the URL query;
a missing parameter yields null and an empty value yields the empty
string, both falsy, so both take the log-and-return branch without a
fetch; otherwise fetch the details and either write the heading or log
an error. -/
def initForm (urlId : Option (List Char)) (f : FetchResult) :
    InitFormResult :=
  match urlId with
  | none => ⟨false, none, true⟩
  | some pid =>
    if pid.isEmpty then ⟨false, none, true⟩
    else
      match getPhotographerDetails pid f with
      | some p => ⟨true, some (updateFormHeader p.name), false⟩
      | none => ⟨true, none, true⟩

/-! ### Helper lemmas -/

theorem utf16Len_cons (c : Char) (l : List Char) :
    utf16Len (c :: l) = (if 0x10000 ≤ c.toNat then 2 else 1) + utf16Len l := by
  simp [utf16Len]

theorem utf16Len_reverse (l : List Char) :
    utf16Len l.reverse = utf16Len l := by
  simp [utf16Len, List.map_reverse, List.sum_reverse]

theorem utf16Len_le_of_sublist {l1 l2 : List Char} (h : List.Sublist l1 l2) :
    utf16Len l1 ≤ utf16Len l2 := by
  induction h with
  | slnil => exact le_refl _
  | cons a _ ih =>
      rw [utf16Len_cons]
      exact ih.trans (Nat.le_add_left _ _)
  | cons₂ a _ ih =>
      rw [utf16Len_cons, utf16Len_cons]
      exact Nat.add_le_add_left ih _

theorem dropWhile_sublist_self (p : Char → Bool) :
    ∀ l : List Char, List.Sublist (l.dropWhile p) l := by
  intro l
  induction l with
  | nil => simp
  | cons a l ih =>
      rw [List.dropWhile_cons]
      by_cases ha : p a = true
      · rw [if_pos ha]
        exact ih.trans (List.sublist_cons_self a l)
      · rw [if_neg ha]

theorem utf16Len_jsTrim_le (v : List Char) :
    utf16Len (jsTrim v) ≤ utf16Len v := by
  rw [jsTrim, utf16Len_reverse]
  calc utf16Len ((v.dropWhile isJsWhitespace).reverse.dropWhile isJsWhitespace)
      ≤ utf16Len (v.dropWhile isJsWhitespace).reverse :=
        utf16Len_le_of_sublist (dropWhile_sublist_self _ _)
    _ = utf16Len (v.dropWhile isJsWhitespace) := utf16Len_reverse _
    _ ≤ utf16Len v := utf16Len_le_of_sublist (dropWhile_sublist_self _ _)

theorem getPhotographerDetails_okBody (pid : List Char)
    (ps : List Photographer) :
    getPhotographerDetails pid (.okBody ps) = ps.find? (idMatches pid) := rfl

/-! ### The claims -/

/-- C1: for every submit-handler pass over the four fields, the
aggregated error flag ends up false (submission allowed) if and only if
each of the four fields independently passes its own rule; there is no
input assignment where some field fails its rule yet the pass ends with
no error. -/
theorem submit_errors_false_iff_all_fields_pass
    (inp : FormInputs) (prior : IndicatorDisplays) :
    (submitHandler inp prior).errors = false ↔
      nameFails inp.first = false ∧ nameFails inp.last = false ∧
      emailFails inp.email inp.emailValidityValid = false ∧
      messageFails inp.message = false := by
  cases h1 : nameFails inp.first <;>
    cases h2 : nameFails inp.last <;>
    cases h3 : emailFails inp.email inp.emailValidityValid <;>
    cases h4 : messageFails inp.message <;>
    simp [submitHandler, validateName, validateEmail, validateMessage,
      h1, h2, h3, h4]

/-- C2: for every submit attempt, if all four fields are valid the
handler invokes the close-modal callback exactly once and returns true;
if at least one field is invalid the callback is not invoked and the
handler returns false. -/
theorem submit_closes_modal_iff_all_fields_valid
    (inp : FormInputs) (prior : IndicatorDisplays) :
    ((nameFails inp.first = false ∧ nameFails inp.last = false ∧
      emailFails inp.email inp.emailValidityValid = false ∧
      messageFails inp.message = false) →
        (submitHandler inp prior).closeModalCalls = 1 ∧
        (submitHandler inp prior).returnValue = true) ∧
    ((nameFails inp.first = true ∨ nameFails inp.last = true ∨
      emailFails inp.email inp.emailValidityValid = true ∨
      messageFails inp.message = true) →
        (submitHandler inp prior).closeModalCalls = 0 ∧
        (submitHandler inp prior).returnValue = false) := by
  cases h1 : nameFails inp.first <;>
    cases h2 : nameFails inp.last <;>
    cases h3 : emailFails inp.email inp.emailValidityValid <;>
    cases h4 : messageFails inp.message <;>
    simp [submitHandler, validateName, validateEmail, validateMessage,
      h1, h2, h3, h4]

/-- C2 witness: a concrete all-valid submission closes the modal once
and returns true, and a concrete submission with an invalid first name
does not close the modal and returns false. -/
theorem submit_closes_modal_iff_all_fields_valid_witness :
    (submitHandler ⟨"Jean".data, "Paul".data, "a@b.co".data, "Hello".data,
        true⟩ ⟨"", "", "", ""⟩).closeModalCalls = 1 ∧
    (submitHandler ⟨['A'], "Paul".data, "a@b.co".data, "Hello".data,
        true⟩ ⟨"", "", "", ""⟩).closeModalCalls = 0 := by
  constructor
  · exact ((submit_closes_modal_iff_all_fields_valid
      ⟨"Jean".data, "Paul".data, "a@b.co".data, "Hello".data, true⟩
      ⟨"", "", "", ""⟩).1 ⟨by decide, by decide, by decide, by decide⟩).1
  · exact ((submit_closes_modal_iff_all_fields_valid
      ⟨['A'], "Paul".data, "a@b.co".data, "Hello".data, true⟩
      ⟨"", "", "", ""⟩).2 (Or.inl (by decide))).1

/-- C8: on every submit pass, all four field checks run and all four
error indicators are rewritten: after the pass, each field's indicator
is visible (display "inline") if and only if that field failed this
pass, and the outcome is independent of the indicator state the pass
started from, so a stale indicator never persists past a successful
re-check of its field. -/
theorem submit_rewrites_all_indicators
    (inp : FormInputs) (prior prior2 : IndicatorDisplays) :
    (submitHandler inp prior).displays =
      { errorFirst := if nameFails inp.first then "inline" else "none"
        errorLast := if nameFails inp.last then "inline" else "none"
        errorEmail := if emailFails inp.email inp.emailValidityValid
          then "inline" else "none"
        errorMessage := if messageFails inp.message
          then "inline" else "none" } ∧
    submitHandler inp prior = submitHandler inp prior2 := by
  refine ⟨?_, rfl⟩
  cases h1 : nameFails inp.first <;>
    cases h2 : nameFails inp.last <;>
    cases h3 : emailFails inp.email inp.emailValidityValid <;>
    cases h4 : messageFails inp.message <;>
    simp [submitHandler, validateName, validateEmail, validateMessage,
      h1, h2, h3, h4]

/-- C3: for every string input to a name field (first or last,
identically), validation fails exactly when the trimmed value has
length below 2 or the trimmed value does not match the name pattern
(letters including the extended range from 0xC0 upward, up to three
letter groups joined by at most one separator each from space, hyphen,
apostrophe, optional trailing period); in particular Jean-Paul, OBrien
with an apostrophe, and Mueller with a u-umlaut pass while A and
John123 fail. -/
theorem name_validation_characterization :
    (∀ v : List Char, nameFails v = true ↔
      utf16Len (jsTrim v) < 2 ∨ ¬ NamesSpec (jsTrim v)) ∧
    nameFails "Jean-Paul".data = false ∧
    nameFails ['O', '\x27', 'B', 'r', 'i', 'e', 'n'] = false ∧
    nameFails ['M', 'ü', 'l', 'l', 'e', 'r'] = false ∧
    nameFails ['A'] = true ∧
    nameFails "John123".data = true := by
  refine ⟨?_, by decide, by decide, by decide, by decide, by decide⟩
  intro v
  rw [← regexNames_correct (jsTrim v), nameFails]
  cases hm : reMatch regexNames (jsTrim v) <;>
    by_cases hl : utf16Len (jsTrim v) < 2 <;> simp [hm, hl]

/-- C3 witness: the characterization applied to the single letter A
yields the failure reason for that input. -/
theorem name_validation_characterization_witness :
    utf16Len (jsTrim ['A']) < 2 ∨ ¬ NamesSpec (jsTrim ['A']) :=
  (name_validation_characterization.1 ['A']).mp (by decide)

/-- C4: for every email input, validation fails exactly when the
trimmed value has length below 2, or the native browser validity check
reports invalid, or the raw (non-trimmed) value fails the email pattern
(non-whitespace-non-at local part, an at sign, and a domain containing
a dot between non-whitespace-non-at segments); consequently a@b.co
passes, not-an-email fails, and a value whose untrimmed form fails the
pattern fails even if its trimmed form would match. -/
theorem email_validation_characterization :
    (∀ (v : List Char) (valid : Bool), emailFails v valid = true ↔
      utf16Len (jsTrim v) < 2 ∨ valid = false ∨ ¬ EmailSpec v) ∧
    emailFails "a@b.co".data true = false ∧
    (∀ valid : Bool, emailFails "not-an-email".data valid = true) ∧
    emailFails [' '] true = true ∧
    (emailFails (' ' :: "a@b.co".data) true = true ∧
      2 ≤ utf16Len (jsTrim (' ' :: "a@b.co".data)) ∧
      reMatch regexEmail (jsTrim (' ' :: "a@b.co".data)) = true) := by
  refine ⟨?_, by decide, ?_, by decide, by decide, by decide, by decide⟩
  · intro v valid
    rw [← regexEmail_correct v, emailFails]
    cases hm : reMatch regexEmail v <;> cases valid <;>
      by_cases hl : utf16Len (jsTrim v) < 2 <;> simp [hm, hl]
  · intro valid
    cases valid <;> decide

/-- C4 witness: the characterization applied to a@b.co with a leading
space yields the failure reason for that input. -/
theorem email_validation_characterization_witness :
    utf16Len (jsTrim (' ' :: "a@b.co".data)) < 2 ∨ true = false ∨
      ¬ EmailSpec (' ' :: "a@b.co".data) :=
  (email_validation_characterization.1 (' ' :: "a@b.co".data) true).mp
    (by decide)

/-- C5: for every message input, validation fails exactly when the
trimmed value has length below 2, with no pattern check applied;
messages of length 0 or 1 fail, and messages of trimmed length at
least 2 pass regardless of content. -/
theorem message_validation_characterization :
    (∀ v : List Char, messageFails v = true ↔ utf16Len (jsTrim v) < 2) ∧
    (∀ v : List Char, utf16Len v < 2 → messageFails v = true) ∧
    (∀ v : List Char, 2 ≤ utf16Len (jsTrim v) → messageFails v = false) ∧
    messageFails [] = true ∧
    messageFails ['x'] = true ∧
    messageFails ['!', '?'] = false := by
  refine ⟨?_, ?_, ?_, by decide, by decide, by decide⟩
  · intro v
    simp [messageFails]
  · intro v h
    exact decide_eq_true (lt_of_le_of_lt (utf16Len_jsTrim_le v) h)
  · intro v h
    exact decide_eq_false (by omega)

/-- C5 witness: the characterization applied to a length-1 message and
to a length-2 message. -/
theorem message_validation_characterization_witness :
    messageFails ['x'] = true ∧ messageFails ['a', 'b'] = false :=
  ⟨message_validation_characterization.2.1 ['x'] (by decide),
   message_validation_characterization.2.2.1 ['a', 'b'] (by decide)⟩

/-- C6: given a record set containing a record whose numeric identifier
equals the base-10 parse of the URL identifier string, initForm updates
the heading to the localized greeting containing the found record's
name; given a set with no matching record, or any request failure
(network error, non-success HTTP status, malformed body), it logs an
error and leaves the heading unmodified. -/
theorem initForm_heading_updated_iff_record_found
    (pid : List Char) (ps : List Photographer) (f : FetchResult)
    (hpid : pid ≠ []) :
    ((∃ n, jsParseInt10 pid = some n ∧ ∃ p, p ∈ ps ∧ p.id = n) →
      ∃ q, q ∈ ps ∧ idMatches pid q = true ∧
        initForm (some pid) (.okBody ps) =
          ⟨true, some (updateFormHeader q.name), false⟩) ∧
    (ps.find? (idMatches pid) = none →
      initForm (some pid) (.okBody ps) = ⟨true, none, true⟩) ∧
    ((f = .networkError ∨ (∃ s, f = .notOk s) ∨ f = .malformedBody) →
      initForm (some pid) f = ⟨true, none, true⟩) := by
  have hempty : pid.isEmpty = false := by
    cases pid with
    | nil => exact absurd rfl hpid
    | cons a l => rfl
  refine ⟨?_, ?_, ?_⟩
  · rintro ⟨n, hn, p, hp, hid⟩
    have hmatch : idMatches pid p = true := by
      unfold idMatches
      rw [hn]
      simp [hid]
    have hfind : (ps.find? (idMatches pid)).isSome :=
      List.find?_isSome.mpr ⟨p, hp, hmatch⟩
    obtain ⟨q, hq⟩ := Option.isSome_iff_exists.mp hfind
    refine ⟨q, List.mem_of_find?_eq_some hq, List.find?_some hq, ?_⟩
    simp [initForm, hempty, getPhotographerDetails_okBody, hq]
  · intro h
    simp [initForm, hempty, getPhotographerDetails_okBody, h]
  · rintro (rfl | ⟨s, rfl⟩ | rfl) <;>
      simp [initForm, hempty, getPhotographerDetails,
        getPhotographerDetailsAsync, getPhotographerDetailsTry]

/-- C6 witness: with URL identifier 7 and a record set holding the
record with id 7, the heading receives the greeting with that record's
name; under a network error the heading stays unmodified and an error
is logged. -/
theorem initForm_heading_updated_iff_record_found_witness :
    initForm (some ['7']) (.okBody [⟨7, "Alice".data⟩]) =
      ⟨true, some (updateFormHeader "Alice".data), false⟩ ∧
    initForm (some ['7']) .networkError = ⟨true, none, true⟩ := by
  have h := initForm_heading_updated_iff_record_found ['7']
    [⟨7, "Alice".data⟩] .networkError (by decide)
  refine ⟨?_, h.2.2 (Or.inl rfl)⟩
  obtain ⟨q, hq, hm, he⟩ :=
    h.1 ⟨7, by decide, ⟨7, "Alice".data⟩, by simp, rfl⟩
  have hq2 : q = ⟨7, "Alice".data⟩ := by simpa using hq
  rw [hq2] at he
  exact he

/-- C7: for every page URL whose query string carries no identifier,
initForm logs an error and stops without issuing any network call; the
missing-identifier path has no fetch side effect. -/
theorem initForm_without_id_issues_no_fetch (f : FetchResult) :
    initForm none f = ⟨false, none, true⟩ := rfl

/-- C9: record matching uses parseInt with radix 10 on the URL
identifier, so for every identifier string whose leading characters
parse to an integer n, such as 7abc or 7.9, the record with numeric
identifier n is matched and the heading updated with its name, even
though the string is not a pure decimal numeral. -/
theorem idMatches_uses_parseInt_prefix :
    (∀ (pid : List Char) (n : Int), jsParseInt10 pid = some n →
      ∀ p : Photographer, idMatches pid p = (p.id == n)) ∧
    jsParseInt10 "7abc".data = some 7 ∧
    jsParseInt10 "7.9".data = some 7 ∧
    initForm (some "7abc".data) (.okBody [⟨7, "Bob".data⟩]) =
      ⟨true, some (updateFormHeader "Bob".data), false⟩ ∧
    initForm (some "7.9".data) (.okBody [⟨7, "Bob".data⟩]) =
      ⟨true, some (updateFormHeader "Bob".data), false⟩ := by
  refine ⟨?_, by decide, by decide, rfl, rfl⟩
  intro pid n hn p
  unfold idMatches
  rw [hn]

/-- C9 witness: the matching predicate applied to the identifier string
7abc and the record with id 7 reduces to the integer comparison. -/
theorem idMatches_uses_parseInt_prefix_witness :
    idMatches "7abc".data ⟨7, "Bob".data⟩ = ((7 : Int) == 7) :=
  idMatches_uses_parseInt_prefix.1 "7abc".data 7 (by decide)
    ⟨7, "Bob".data⟩

/-- C10: getPhotographerDetails never propagates an exception to its
caller: for every failure (network error, non-success HTTP status,
malformed JSON body, or no matching record) it resolves with undefined,
every thrown error being caught inside the function, and initForm
treats that undefined as the not-found case. -/
theorem getPhotographerDetails_never_throws :
    (∀ (pid : List Char) (f : FetchResult),
      ∃ v, getPhotographerDetailsAsync pid f = Except.ok v) ∧
    (∀ pid : List Char, getPhotographerDetails pid .networkError = none) ∧
    (∀ (pid : List Char) (s : Nat),
      getPhotographerDetails pid (.notOk s) = none) ∧
    (∀ pid : List Char, getPhotographerDetails pid .malformedBody = none) ∧
    (∀ (pid : List Char) (ps : List Photographer),
      ps.find? (idMatches pid) = none →
        getPhotographerDetails pid (.okBody ps) = none) ∧
    (∀ (pid : List Char) (f : FetchResult), pid ≠ [] →
      getPhotographerDetails pid f = none →
        initForm (some pid) f = ⟨true, none, true⟩) := by
  refine ⟨?_, fun pid => rfl, fun pid s => rfl, fun pid => rfl, ?_, ?_⟩
  · intro pid f
    cases f with
    | networkError => exact ⟨none, rfl⟩
    | notOk s => exact ⟨none, rfl⟩
    | malformedBody => exact ⟨none, rfl⟩
    | okBody ps => exact ⟨ps.find? (idMatches pid), rfl⟩
  · intro pid ps h
    rw [getPhotographerDetails_okBody, h]
  · intro pid f hpid h
    have hempty : pid.isEmpty = false := by
      cases pid with
      | nil => exact absurd rfl hpid
      | cons a l => rfl
    simp [initForm, hempty, h]

/-- C10 witness: a malformed body resolves to undefined and initForm
takes the not-found branch. -/
theorem getPhotographerDetails_never_throws_witness :
    initForm (some ['7']) FetchResult.malformedBody = ⟨true, none, true⟩ :=
  getPhotographerDetails_never_throws.2.2.2.2.2 ['7'] .malformedBody
    (by decide) rfl

end Fisheye
